import Mathlib

/-!
Shallow embedding of the hub-api ingestion and query core
(src/build.py, src/hub_api/client.py, src/hub_api/schemas/meltano.py,
src/hub_api/schemas/validation.py, src/hub_api/models.py,
src/hub_api/enums.py, src/hub_api/ids.py, src/hub_api/helpers/compatibility.py).

Modelling conventions:
* Python dictionaries become association lists with insert-or-update
  semantics; JSON-serialized values round-trip through the store and are
  therefore represented by their structured form directly.
* Fallible Python code (pydantic validation, enum coercion, attribute
  lookup) becomes `Except`; the exception messages are elided, only the error
  class is kept.
* SQL queries become list comprehensions over the row lists of a `Store`
  structure; result order of unordered SQL queries is fixed to the nested
  iteration order, which no theorem below depends on.
-/

namespace HubApi

/-- Plugin types, in the declaration order of `enums.PluginTypeEnum`. -/
inductive PluginTypeEnum where
  | extractors
  | loaders
  | transformers
  | utilities
  | transforms
  | orchestrators
  | mappers
  | files
deriving DecidableEq, Repr

/-- `enum.StrEnum` string value of a plugin type. -/
def PluginTypeEnum.value : PluginTypeEnum → String
  | .extractors => "extractors"
  | .loaders => "loaders"
  | .transformers => "transformers"
  | .utilities => "utilities"
  | .transforms => "transforms"
  | .orchestrators => "orchestrators"
  | .mappers => "mappers"
  | .files => "files"

/-- Iteration order of `for plugin_type in enums.PluginTypeEnum`. -/
def PluginTypeEnum.all : List PluginTypeEnum :=
  [.extractors, .loaders, .transformers, .utilities,
   .transforms, .orchestrators, .mappers, .files]

/-- `enums.PluginTypeEnum(value)`: succeeds exactly on the eight values. -/
def PluginTypeEnum.parse : String → Option PluginTypeEnum
  | "extractors" => some .extractors
  | "loaders" => some .loaders
  | "transformers" => some .transformers
  | "utilities" => some .utilities
  | "transforms" => some .transforms
  | "orchestrators" => some .orchestrators
  | "mappers" => some .mappers
  | "files" => some .files
  | _ => none

/-- String values of `enums.ExtractorCapabilityEnum`. -/
def extractorCapabilityValues : List String :=
  ["properties", "catalog", "discover", "state", "about", "stream-maps",
   "schema-flattening", "activate-version", "batch", "test", "log-based",
   "structured-logging"]

/-- String values of `enums.LoaderCapabilityEnum`. -/
def loaderCapabilityValues : List String :=
  ["about", "activate-version", "datatype-failsafe", "hard-delete",
   "schema-flattening", "soft-delete", "stream-maps", "validate-records",
   "structured-logging"]

/-- String values of `enums.MapperCapabilityEnum`. -/
def mapperCapabilityValues : List String :=
  ["stream-maps", "structured-logging"]

/-- Structured JSON-like values: the `value` payload of a setting
(`str | dict | list | bool | int | None` in `_BasePluginSetting`, the
optional part modelled as `Option JsonValue` at use sites) and the
payload of extractor metadata overrides. -/
inductive JsonValue where
  | str (s : String)
  | int (n : Int)
  | bool (b : Bool)
  | arr (elems : List JsonValue)
  | obj (fields : List (String × JsonValue))
deriving Repr

/-- `meltano.Option`: one entry of an options setting. -/
structure OptionModel where
  value : Option JsonValue
  label : Option String
deriving Repr

/-- The closed set of setting-kind tags of the `meltano.PluginSetting`
discriminated union (`StringSetting` … `HiddenSetting`).  There is no
member for a "decimal" kind: `schemas/meltano.py` declares none. -/
inductive SettingKind where
  | string
  | integer
  | boolean
  | dateIso8601
  | email
  | password
  | oauth
  | options
  | file
  | array
  | object
  | hidden
deriving DecidableEq, Repr

/-- The `Tag` string of each union member. -/
def SettingKind.tag : SettingKind → String
  | .string => "string"
  | .integer => "integer"
  | .boolean => "boolean"
  | .dateIso8601 => "date_iso8601"
  | .email => "email"
  | .password => "password"
  | .oauth => "oauth"
  | .options => "options"
  | .file => "file"
  | .array => "array"
  | .object => "object"
  | .hidden => "hidden"

/-- Inverse of `SettingKind.tag`: which union member a discriminator
string selects.  `"decimal"` (or any other unknown string) selects none,
so pydantic validation of such a document fails. -/
def SettingKind.parse : String → Option SettingKind
  | "string" => some .string
  | "integer" => some .integer
  | "boolean" => some .boolean
  | "date_iso8601" => some .dateIso8601
  | "email" => some .email
  | "password" => some .password
  | "oauth" => some .oauth
  | "options" => some .options
  | "file" => some .file
  | "array" => some .array
  | "object" => some .object
  | "hidden" => some .hidden
  | _ => none

/-- A validated member of the `meltano.PluginSetting` discriminated
union, flattened: the union member is determined by `kind`
(`kind = none` is the `StringSetting` whose optional literal `kind`
field was absent), and `options` is populated only for the
`OptionsSetting` member (empty for every other member, which has no
such field). -/
structure PluginSetting where
  aliases : Option (List String)
  description : Option String
  documentation : Option String
  env : Option String
  label : Option String
  name : String
  placeholder : Option String
  sensitive : Option Bool
  value : Option JsonValue
  kind : Option SettingKind
  options : List OptionModel
deriving Repr

/-- `compatibility.VersionTuple`: a `(major, minor)` client version. -/
def VersionTuple := Nat × Nat

/-- `compatibility.LATEST`. -/
def LATEST : VersionTuple := (999, 999)

/-- Python tuple comparison `version < (a, b)` (lexicographic). -/
def vlt (v w : VersionTuple) : Bool :=
  v.1 < w.1 || (v.1 = w.1 && v.2 < w.2)

/-! ## Normalized store rows (models.py / the tables created by build.py) -/

/-- A `plugins` table row. -/
structure PluginRow where
  id : String
  default_variant_id : String
  plugin_type : PluginTypeEnum
  name : String
deriving DecidableEq, Repr

/-- A `plugin_variants` table row.  The presentation-only text columns
(`definition`, `next_steps`, `settings_preamble`, `usage`, `prereq`,
`maintenance_status`, `quality`, `domain_url`) are never read by the
query path under verification and are omitted. -/
structure VariantRow where
  id : String
  plugin_id : String
  name : String
  description : Option String
  docs : Option String
  logo_url : Option String
  pip_url : Option String
  executable : Option String
  repo : Option String
  ext_repo : Option String
  «namespace» : String
  label : Option String
  hidden : Option Bool
deriving DecidableEq, Repr

/-- A `settings` table row.  `value` and `options` are JSON columns;
`build.py` writes them with `json.dumps` and the query path reads them
back through `sa.JSON`, a round trip modelled here by storing the
structured value itself. -/
structure SettingRow where
  id : String
  variant_id : String
  name : String
  label : Option String
  documentation : Option String
  description : Option String
  placeholder : Option String
  env : Option String
  kind : Option String
  value : Option JsonValue
  sensitive : Option Bool
  options : Option (List OptionModel)
deriving Repr

/-- A `setting_aliases` table row. -/
structure SettingAliasRow where
  id : String
  setting_id : String
  name : String
deriving DecidableEq, Repr

/-- A `setting_groups` table row (`models.RequiredSetting`). -/
structure RequiredSettingRow where
  variant_id : String
  setting_id : String
  setting_name : String
  group_id : Nat
deriving DecidableEq, Repr

/-- A `capabilities` table row. -/
structure CapabilityRow where
  id : String
  variant_id : String
  name : String
deriving DecidableEq, Repr

/-- A `keywords` table row. -/
structure KeywordRow where
  id : String
  variant_id : String
  name : String
deriving DecidableEq, Repr

/-- A `selects` table row. -/
structure SelectRow where
  id : String
  variant_id : String
  expression : String
deriving DecidableEq, Repr

/-- A `metadata` table row. -/
structure MetadataRow where
  id : String
  variant_id : String
  key : String
  value : JsonValue
deriving Repr

/-- A `commands` table row.  `args` is nullable in practice: the
structured command form inserts `command.get("args")`. -/
structure CommandRow where
  id : String
  variant_id : String
  name : String
  args : Option String
  description : Option String
  executable : Option String
deriving DecidableEq, Repr

/-- A `maintainers` table row. -/
structure MaintainerRow where
  id : String
  name : Option String
  label : Option String
  url : Option String
deriving DecidableEq, Repr

/-! ## Ingestion input documents and validation (build.py / validation.py) -/

/-- One entry of a raw `commands` map: either the bare string-args
shorthand or the structured `{args, description, executable}` form. -/
inductive CommandDoc where
  | bare (args : String)
  | structured (args : Option String) (description : Option String)
      (executable : Option String)
deriving DecidableEq, Repr

/-- Maintainer side-table entry (`maintainers.yml` value). -/
structure MaintainerData where
  name : Option String
  label : Option String
  url : Option String
deriving DecidableEq, Repr

/-- A raw per-variant definition document, restricted to the fragment
of the pydantic schema that the verified pipeline reads.  The four
required base fields of `meltano.Plugin` (`name`, `namespace`,
`variant`, `repo`) are carried as `Option` so a document can omit them;
`settings` entries are carried already in discriminated-union form (the
per-setting union validation is modelled separately by
`plugin_setting_model_validate` on the query side). -/
structure Document where
  name : Option String
  «namespace» : Option String
  variant : Option String
  repo : Option String
  label : Option String
  description : Option String
  docs : Option String
  pip_url : Option String
  executable : Option String
  ext_repo : Option String
  logo_url : Option String
  hidden : Option Bool
  settings : List PluginSetting
  settings_group_validation : List (List String)
  capabilities : List String
  keywords : List String
  «select» : List String
  metadata : List (String × JsonValue)
  commands : List (String × CommandDoc)
deriving Repr

/-- One entry of `pydantic.ValidationError.errors()`: the offending
field location and message (the fragment the build report uses). -/
structure ErrorDetails where
  loc : String
  msg : String
deriving DecidableEq, Repr

/-- The outcome of `validation.<Type>Definition.model_validate` on the
modelled fragment: a missing-required-field error for each absent
required base field, reported in pydantic field-declaration order
(`name`, `namespace`, `variant`, `repo`). -/
def requiredFieldErrors (d : Document) : List ErrorDetails :=
  (if d.name.isNone then [⟨"name", "Field required"⟩] else []) ++
  (if d.«namespace».isNone then [⟨"namespace", "Field required"⟩] else []) ++
  (if d.variant.isNone then [⟨"variant", "Field required"⟩] else []) ++
  (if d.repo.isNone then [⟨"repo", "Field required"⟩] else [])

/-- A validated `validation.HubPluginDefinition`, restricted to the
fields `load_db` reads off the validated object. -/
structure HubPluginDefinition where
  name : String
  «namespace» : String
  variant : String
  repo : String
  label : Option String
  description : Option String
  docs : Option String
  pip_url : Option String
  executable : Option String
  ext_repo : Option String
  logo_url : Option String
  hidden : Option Bool
  settings : List PluginSetting
deriving Repr

/-- `model_validate` of a raw document against its plugin-type schema:
returns the validated definition, or the (non-empty) list of error
details that `pydantic.ValidationError.errors()` would carry. -/
def hub_plugin_model_validate (d : Document) :
    Except (List ErrorDetails) HubPluginDefinition :=
  match d.name, d.«namespace», d.variant, d.repo with
  | some name, some ns, some variant, some repo =>
      .ok
        { name := name
          «namespace» := ns
          variant := variant
          repo := repo
          label := d.label
          description := d.description
          docs := d.docs
          pip_url := d.pip_url
          executable := d.executable
          ext_repo := d.ext_repo
          logo_url := d.logo_url
          hidden := d.hidden
          settings := d.settings }
  | _, _, _, _ => .error (requiredFieldErrors d)

/-- `build._build_setting`: the settings-table row and alias rows for
one validated setting of a variant. -/
def build_setting (variant_id : String) (s : PluginSetting) :
    SettingRow × List SettingAliasRow :=
  let setting_id := variant_id ++ ".setting_" ++ s.name
  let row : SettingRow :=
    { id := setting_id
      variant_id := variant_id
      name := s.name
      label := s.label
      documentation := s.documentation
      description := s.description
      placeholder := s.placeholder
      env := s.env
      kind := s.kind.map SettingKind.tag
      value := s.value
      sensitive := s.sensitive
      options :=
        match s.kind with
        | some .options => some s.options
        | _ => none }
  let aliases : List SettingAliasRow :=
    match s.aliases with
    | some (a :: rest) =>
        ((a :: rest).map fun aliasName =>
          { id := setting_id ++ ".alias_" ++ aliasName
            setting_id := setting_id
            name := aliasName })
    | _ => []
  (row, aliases)

/-- `build.LoadError`. -/
structure LoadError where
  plugin_name : String
  variant : String
  link : String
  error : ErrorDetails
deriving DecidableEq, Repr

/-- `build.LoadResult`. -/
structure LoadResult where
  errors : List LoadError
deriving DecidableEq, Repr

/-- One row inserted by `load_db`, tagged by target table. -/
inductive Row where
  | maintainer (m : MaintainerRow)
  | variant (v : VariantRow)
  | setting (s : SettingRow)
  | settingAlias (a : SettingAliasRow)
  | settingGroup (g : RequiredSettingRow)
  | capability (c : CapabilityRow)
  | keyword (k : KeywordRow)
  | selectRow (s : SelectRow)
  | metadataRow (m : MetadataRow)
  | command (c : CommandRow)
  | plugin (p : PluginRow)
deriving Repr

/-- Whether a row goes to the `maintainers` table. -/
def Row.isMaintainer : Row → Bool
  | .maintainer _ => true
  | _ => false

/-- Whether a row goes to the `plugin_variants` table. -/
def Row.isVariant : Row → Bool
  | .variant _ => true
  | _ => false

/-- Whether a row goes to the `plugins` table. -/
def Row.isPlugin : Row → Bool
  | .plugin _ => true
  | _ => false

/-- The input of one `load_db` run: the two side tables plus, per
plugin type, the plugin directories with their variant documents
(`tree t = [(plugin_name, [(variant_name, document), …]), …]`).
`default_variants t name` is `default_variants[plugin_type].get(name)`. -/
structure LoadInput where
  maintainers : List (String × MaintainerData)
  default_variants : PluginTypeEnum → String → Option String
  tree : PluginTypeEnum → List (String × List (String × Document))

/-- The `commands` table row for one raw command entry: the bare
string shorthand sets only `args`; the structured form copies its
three optional fields. -/
def mkCommandRow (variant_id command_name : String) : CommandDoc → CommandRow
  | .bare args =>
      { id := variant_id ++ ".command_" ++ command_name
        variant_id := variant_id
        name := command_name
        args := some args
        description := none
        executable := none }
  | .structured args description executable =>
      { id := variant_id ++ ".command_" ++ command_name
        variant_id := variant_id
        name := command_name
        args := args
        description := description
        executable := executable }

/-- Rows and errors produced for one variant document: on validation
failure, one `LoadError` per error detail and no rows; on success, the
variant row followed by its settings (each with its alias rows), the
setting-group rows, capability, keyword, select, metadata and command
rows, in the insert order of `load_db`. -/
def processDocument (plugin_type : PluginTypeEnum) (plugin_name plugin_id : String)
    (variant : String) (d : Document) : List Row × List LoadError :=
  match hub_plugin_model_validate d with
  | .error errs =>
      ([],
        errs.map fun e =>
          { plugin_name := plugin_name
            variant := variant
            link := "https://github.com/meltano/hub/blob/main/_data/meltano/"
              ++ plugin_type.value ++ "/" ++ plugin_name ++ "/" ++ variant ++ ".yml"
            error := e })
  | .ok plugin =>
      let variant_id := plugin_id ++ "." ++ variant
      let variantRow : Row := .variant
        { id := variant_id
          plugin_id := plugin_id
          name := variant
          description := plugin.description
          docs := plugin.docs
          logo_url := plugin.logo_url
          pip_url := plugin.pip_url
          executable := plugin.executable
          repo := some plugin.repo
          ext_repo := plugin.ext_repo
          «namespace» := plugin.«namespace»
          label := plugin.label
          hidden := plugin.hidden }
      let settingRows : List Row := plugin.settings.flatMap fun s =>
        Row.setting (build_setting variant_id s).1
          :: ((build_setting variant_id s).2).map Row.settingAlias
      let groupRows : List Row :=
        (d.settings_group_validation.enum.flatMap fun ig =>
          ig.2.map fun setting_name =>
            Row.settingGroup
              { variant_id := variant_id
                setting_id := variant_id ++ ".setting_" ++ setting_name
                setting_name := setting_name
                group_id := ig.1 })
      let capabilityRows : List Row := d.capabilities.map fun c =>
        .capability
          { id := variant_id ++ ".capability_" ++ c
            variant_id := variant_id
            name := c }
      let keywordRows : List Row := d.keywords.map fun k =>
        .keyword
          { id := variant_id ++ ".keyword_" ++ k
            variant_id := variant_id
            name := k }
      let selectRows : List Row := d.select.enum.map fun ie =>
        .selectRow
          { id := variant_id ++ ".select_" ++ toString ie.1
            variant_id := variant_id
            expression := ie.2 }
      let metadataRows : List Row := d.metadata.enum.map fun ikv =>
        .metadataRow
          { id := variant_id ++ ".metadata_" ++ toString ikv.1
            variant_id := variant_id
            key := ikv.2.1
            value := ikv.2.2 }
      let commandRows : List Row := d.commands.map fun nc =>
        .command (mkCommandRow variant_id nc.1 nc.2)
      (variantRow :: settingRows ++ groupRows ++ capabilityRows ++ keywordRows
        ++ selectRows ++ metadataRows ++ commandRows, [])

/-- Rows and errors produced for one plugin directory: the rows of each
variant document in order, then the `plugins` table row (emitted after
all the plugin's variants, whether or not any of them validated). -/
def processPlugin (inp : LoadInput) (plugin_type : PluginTypeEnum)
    (entry : String × List (String × Document)) : List Row × List LoadError :=
  let plugin_name := entry.1
  let default_variant := inp.default_variants plugin_type plugin_name
  let plugin_id := plugin_type.value ++ "." ++ plugin_name
  let default_variant_id :=
    plugin_id ++ "." ++ (match default_variant with | some v => v | none => "None")
  let step := entry.2.foldl
    (fun (acc : List Row × List LoadError) (vd : String × Document) =>
      (acc.1 ++ (processDocument plugin_type plugin_name plugin_id vd.1 vd.2).1,
       acc.2 ++ (processDocument plugin_type plugin_name plugin_id vd.1 vd.2).2))
    ([], [])
  (step.1 ++
    [Row.plugin
      { id := plugin_id
        default_variant_id := default_variant_id
        plugin_type := plugin_type
        name := plugin_name }],
    step.2)

/-- Rows and errors produced for one plugin type. -/
def processType (inp : LoadInput) (plugin_type : PluginTypeEnum) :
    List Row × List LoadError :=
  (inp.tree plugin_type).foldl
    (fun (acc : List Row × List LoadError) entry =>
      (acc.1 ++ (processPlugin inp plugin_type entry).1,
       acc.2 ++ (processPlugin inp plugin_type entry).2))
    ([], [])

/-- `build.load_db`: inserts every maintainer side-table row first,
then walks the plugin types in enum order; never raises on a
validation failure, collecting `LoadError`s instead.  Returns the full
insert sequence and the `LoadResult`. -/
def mkMaintainerRow (m : String × MaintainerData) : Row :=
  .maintainer { id := m.1, name := m.2.name, label := m.2.label, url := m.2.url }

def load_db (inp : LoadInput) : List Row × LoadResult :=
  let maintainerRows : List Row := inp.maintainers.map mkMaintainerRow
  let step := PluginTypeEnum.all.foldl
    (fun (acc : List Row × List LoadError) t =>
      (acc.1 ++ (processType inp t).1, acc.2 ++ (processType inp t).2))
    ([], [])
  (maintainerRows ++ step.1, ⟨step.2⟩)

/-! ## The store snapshot the query path reads (database.py / models.py) -/

/-- One store snapshot: the row lists of the normalized tables.  The
query path is read-only against it. -/
structure Store where
  plugins : List PluginRow
  variants : List VariantRow
  settings : List SettingRow
  setting_aliases : List SettingAliasRow
  setting_groups : List RequiredSettingRow
  capabilities : List CapabilityRow
  keywords : List KeywordRow
  selects : List SelectRow
  metadata : List MetadataRow
  commands : List CommandRow
  maintainers : List MaintainerRow

/-- `ids.PluginID`. -/
structure PluginID where
  plugin_type : PluginTypeEnum
  plugin_name : String
deriving DecidableEq, Repr

/-- `PluginID.as_db_id`. -/
def PluginID.as_db_id (p : PluginID) : String :=
  p.plugin_type.value ++ "." ++ p.plugin_name

/-- `ids.VariantID`. -/
structure VariantID where
  plugin_type : PluginTypeEnum
  plugin_name : String
  plugin_variant : String
deriving DecidableEq, Repr

/-- `VariantID.as_db_id`. -/
def VariantID.as_db_id (v : VariantID) : String :=
  v.plugin_type.value ++ "." ++ v.plugin_name ++ "." ++ v.plugin_variant

/-- Errors the query path can surface.  `notFound` covers the
`exceptions.NotFoundError` subclasses, `badParameter` the
`exceptions.BadParameterError` subclasses (`ids.InvalidPluginTypeError`);
`validationError` is a `pydantic.ValidationError` escaping response
assembly and `attributeError` a Python `AttributeError` (a lookup of a
name that does not exist); messages are elided. -/
inductive QueryErr where
  | notFound
  | badParameter
  | validationError
  | attributeError
deriving DecidableEq, Repr

/-- `client._build_variant_path`: reference path of one variant. -/
def build_variant_path (plugin_type : PluginTypeEnum)
    (plugin_name plugin_variant : String) : String :=
  "/meltano/api/v1/plugins/" ++ plugin_type.value ++ "/"
    ++ plugin_name ++ "--" ++ plugin_variant

/-- `client.build_hub_url`: documentation URL of one variant. -/
def build_hub_url (base_url : String) (plugin_type : PluginTypeEnum)
    (plugin_name plugin_variant : String) : String :=
  base_url ++ "/" ++ plugin_type.value ++ "/" ++ plugin_name ++ "--" ++ plugin_variant

/-- `client.BASE_HUB_URL`. -/
def BASE_HUB_URL : String := "https://hub.meltano.com"

/-- `urllib.parse.urljoin(base, rel)` restricted to the shapes the
query path produces: `rel` is either absent (urljoin returns the base
unchanged) or an absolute path like `/assets/logos/x.png` appended to
the origin-only base URL. -/
def urljoin (base : String) (rel : Option String) : String :=
  match rel with
  | none => base
  | some r => base ++ r

/-- The pydantic `_kind_discriminator` on a stored kind column:
`getattr(setting, "kind", None) or "string"` (both a null and an empty
stored kind fall back to `"string"`). -/
def kind_discriminator (kind : Option String) : String :=
  match kind with
  | none => "string"
  | some s => if s = "" then "string" else s

/-- `meltano.PluginSetting.model_validate` on a stored settings row
(the rehydration step of `client._variant_details`): pick the union
member by the discriminator, re-check the member's literal `kind`
field, attach the alias names (`Setting.aliases` is `None` when the
setting has no alias rows), and for the `OptionsSetting` member require
the stored options list to be present. -/
def plugin_setting_model_validate (aliasTable : List SettingAliasRow)
    (row : SettingRow) : Except QueryErr PluginSetting :=
  match SettingKind.parse (kind_discriminator row.kind) with
  | none => .error .validationError
  | some k =>
      let kindField : Except QueryErr (Option SettingKind) :=
        match row.kind with
        | none => .ok none
        | some s => if SettingKind.parse s = some k then .ok (some k)
            else .error .validationError
      match kindField with
      | .error e => .error e
      | .ok kf =>
          let aliasNames :=
            (aliasTable.filter (fun a => a.setting_id = row.id)).map (·.name)
          let aliases := if aliasNames.isEmpty then none else some aliasNames
          if k = .options then
            match row.options with
            | none => .error .validationError
            | some opts =>
                .ok
                  { aliases := aliases
                    description := row.description
                    documentation := row.documentation
                    env := row.env
                    label := row.label
                    name := row.name
                    placeholder := row.placeholder
                    sensitive := row.sensitive
                    value := row.value
                    kind := kf
                    options := opts }
          else
            .ok
              { aliases := aliases
                description := row.description
                documentation := row.documentation
                env := row.env
                label := row.label
                name := row.name
                placeholder := row.placeholder
                sensitive := row.sensitive
                value := row.value
                kind := kf
                options := [] }

/-- The `[meltano.PluginSetting.model_validate(s) for s in settings]`
comprehension of `client._variant_details`: validate each stored
setting row in order, raising the first validation error. -/
def validateSettings (aliasTable : List SettingAliasRow) :
    List SettingRow → Except QueryErr (List PluginSetting)
  | [] => .ok []
  | r :: rest =>
      match plugin_setting_model_validate aliasTable r with
      | .error e => .error e
      | .ok s =>
          match validateSettings aliasTable rest with
          | .error e => .error e
          | .ok ss => .ok (s :: ss)

/-- An assembled detail document: the union of the eight concrete
response shapes of `schemas/api.py`, tagged by `plugin_type`.
`capabilities` is attached by the assembler exactly for extractor and
loader responses (the mapper response shape also requires it, but the
assembler never supplies it — see `variant_details`); `select` and
`metadata` are attached exactly for extractor responses. -/
structure DetailsResponse where
  plugin_type : PluginTypeEnum
  commands : List (String × CommandRow)
  description : Option String
  executable : Option String
  docs : String
  label : Option String
  logo_url : String
  documentation : Option String
  name : String
  «namespace» : String
  pip_url : Option String
  repo : String
  ext_repo : Option String
  settings : List PluginSetting
  settings_group_validation : List (List String)
  variant : String
  capabilities : Option (List String)
  «select» : Option (List String)
  metadata : Option (List (String × JsonValue))
deriving Repr

/-- Python dict insert: update the entry in place if the key is
present, else append. -/
def dictInsert (l : List (String × β)) (key : String) (v : β) :
    List (String × β) :=
  match l with
  | [] => [(key, v)]
  | (k, w) :: rest =>
      if k = key then (k, v) :: rest else (k, w) :: dictInsert rest key v

/-- Group the variant's `setting_groups` rows by `group_id` in first-
appearance order (`models.PluginVariant.settings_group_validation`,
a `defaultdict` fold), returning the ordered name lists. -/
def settingsGroupValidation (rows : List RequiredSettingRow) : List (List String) :=
  (rows.foldl
    (fun (acc : List (Nat × List String)) r =>
      if acc.any (fun g => g.1 = r.group_id) then
        acc.map (fun g => if g.1 = r.group_id then (g.1, g.2 ++ [r.setting_name]) else g)
      else acc ++ [(r.group_id, [r.setting_name])])
    []).map (·.2)

/-- `models.PluginVariant.commands`: the name-keyed command dict. -/
def variantCommands (rows : List CommandRow) : List (String × CommandRow) :=
  rows.foldl (fun acc c => dictInsert acc c.name c) []

/-- All capability names must coerce into the given closed capability
enum, else the response model raises a validation error. -/
def checkCapabilities (valid : List String) (caps : List String) :
    Except QueryErr (List String) :=
  if caps.all (fun c => valid.contains c) then .ok caps else .error .validationError

/-- `client.MeltanoHub._variant_details`: assemble the polymorphic
detail document of one variant row.  Mirrors the failure modes of the
source: a missing owning plugin row surfaces as an attribute error; a
stored setting that no union member accepts, a missing required `repo`,
a command row without `args`, an invalid capability name, and — for
extractor variants — an empty select or metadata relationship (the
`PluginVariant.select` / `extractor_metadata` properties return `None`
then, which the `list`/`dict`-typed response fields reject) all surface
as validation errors; and the mapper branch always fails validation,
because the source never supplies the `capabilities` key that
`MapperResponse` requires. -/
def variant_details (s : Store) (v : VariantRow) : Except QueryErr DetailsResponse :=
  match s.plugins.find? (fun p => p.id = v.plugin_id) with
  | none => .error .attributeError
  | some p =>
      match validateSettings s.setting_aliases
          (s.settings.filter (fun r => r.variant_id = v.id)) with
      | .error e => .error e
      | .ok settings =>
          let commandRows := (s.commands.filter (fun c => c.variant_id = v.id))
          if !(commandRows.all (fun c => c.args.isSome)) then .error .validationError
          else
          match v.repo with
          | none => .error .validationError
          | some repo =>
              let base : DetailsResponse :=
                { plugin_type := p.plugin_type
                  commands := variantCommands commandRows
                  description := v.description
                  executable := v.executable
                  docs := build_hub_url BASE_HUB_URL p.plugin_type p.name v.name
                  label := v.label
                  logo_url := urljoin BASE_HUB_URL v.logo_url
                  documentation := v.docs
                  name := p.name
                  «namespace» := v.«namespace»
                  pip_url := v.pip_url
                  repo := repo
                  ext_repo := v.ext_repo
                  settings := settings
                  settings_group_validation :=
                    settingsGroupValidation
                      (s.setting_groups.filter (fun g => g.variant_id = v.id))
                  variant := v.name
                  capabilities := none
                  «select» := none
                  metadata := none }
              let caps := (s.capabilities.filter (fun c => c.variant_id = v.id)).map (·.name)
              match p.plugin_type with
              | .extractors =>
                  match checkCapabilities extractorCapabilityValues caps with
                  | .error e => .error e
                  | .ok caps =>
                      let sel := (s.selects.filter (fun r => r.variant_id = v.id)).map (·.expression)
                      let md := (s.metadata.filter (fun r => r.variant_id = v.id)).map
                        (fun r => (r.key, r.value))
                      if sel.isEmpty then .error .validationError
                      else if md.isEmpty then .error .validationError
                      else .ok { base with
                                  capabilities := some caps
                                  «select» := some sel
                                  metadata := some md }
              | .loaders =>
                  match checkCapabilities loaderCapabilityValues caps with
                  | .error e => .error e
                  | .ok caps => .ok { base with capabilities := some caps }
              | .mappers =>
                  -- `_variant_details` never sets the "capabilities" key for
                  -- mappers (client.py:166-167), yet `MapperResponse` requires
                  -- it, so its validation always raises.
                  .error .validationError
              | _ => .ok base

/-- `client._convert_decimal_to_integer`.  The loop body evaluates
`meltano.DecimalSetting`, but `schemas/meltano.py` defines no class of
that name, so the first iteration raises `AttributeError`; only an
empty settings list completes the loop. -/
def convert_decimal_to_integer (settings : List PluginSetting) :
    Except QueryErr (List PluginSetting) :=
  match settings with
  | [] => .ok []
  | _ :: _ => .error .attributeError

/-- Clearing of the `sensitive` field of one setting (the
`version < (3, 3)` downgrade rule of `get_plugin_details`). -/
def clearSensitive (s : PluginSetting) : PluginSetting :=
  { s with sensitive := none }

/-- The compatibility transform of `get_plugin_details` on the settings
of an assembled document: the decimal-to-integer rule below version
`(3, 9)`, then the sensitive-clearing rule below version `(3, 3)`. -/
def compatTransform (version : VersionTuple) (settings : List PluginSetting) :
    Except QueryErr (List PluginSetting) :=
  match (if vlt version (3, 9) then convert_decimal_to_integer settings
         else .ok settings) with
  | .error e => .error e
  | .ok s1 => .ok (if vlt version (3, 3) then s1.map clearSensitive else s1)

/-- `client.MeltanoHub.get_plugin_details`: fetch the variant row by
id (`NotFoundError` when absent), assemble its details, then apply the
compatibility transform for the client version. -/
def get_plugin_details (s : Store) (variant_id : VariantID)
    (meltano_version : VersionTuple) : Except QueryErr DetailsResponse :=
  match s.variants.find? (fun v => v.id = variant_id.as_db_id) with
  | none => .error .notFound
  | some v =>
      match variant_details s v with
      | .error e => .error e
      | .ok details =>
          match compatTransform meltano_version details.settings with
          | .error e => .error e
          | .ok settings => .ok { details with settings := settings }

/-- The join of `client.MeltanoHub.get_default_variant_url`: each
plugin row paired with the variant row named by its
`default_variant_id`, restricted to the pairs whose variant belongs to
the requested plugin id. -/
def defaultVariantJoin (s : Store) (plugin_id : PluginID) :
    List (PluginRow × VariantRow) :=
  s.plugins.flatMap fun p =>
    s.variants.filterMap fun v =>
      if v.id = p.default_variant_id ∧ v.plugin_id = plugin_id.as_db_id then
        some (p, v)
      else none

/-- `client.MeltanoHub.get_default_variant_url`: build the reference
path from the first row of the join; `NotFoundError` when no row
matches. -/
def get_default_variant_url (s : Store) (plugin_id : PluginID) :
    Except QueryErr String :=
  match (defaultVariantJoin s plugin_id).head? with
  | some pv => .ok (build_variant_path pv.1.plugin_type pv.1.name pv.2.name)
  | none => .error .notFound

/-- One result row of `client.MeltanoHub._get_all_plugins`. -/
structure IndexRow where
  plugin_name : String
  plugin_type : PluginTypeEnum
  variant_name : String
  logo_url : Option String
  default_variant : String
deriving DecidableEq, Repr

/-- `client.MeltanoHub._get_all_plugins`: every variant joined to its
owning plugin and to the plugin's default-variant row (an inner join:
`default_variant_id = dv.id` and `plugin.id = dv.plugin_id`), with an
optional plugin-type filter. -/
def get_all_plugins (s : Store) (plugin_type : Option PluginTypeEnum) :
    List IndexRow :=
  s.variants.flatMap fun v =>
    s.plugins.flatMap fun p =>
      s.variants.filterMap fun dv =>
        if p.id = v.plugin_id && p.default_variant_id = dv.id && p.id = dv.plugin_id
            && plugin_type.all (fun t => p.plugin_type = t) then
          some
            { plugin_name := p.name
              plugin_type := p.plugin_type
              variant_name := v.name
              logo_url := v.logo_url
              default_variant := dv.name }
        else none

/-- `api_schemas.PluginRef`: one entry of a plugin index. -/
structure PluginRef where
  default_variant : String
  logo_url : Option String
  variants : List (String × String)
deriving DecidableEq, Repr

/-- The `pydantic.HttpUrl` check restricted to what it decides on the
strings this code builds: an absolute http(s) URL is accepted, a
scheme-less relative path such as the output of `_build_variant_path`
is rejected ("relative URL without a base"). -/
def isAbsoluteHttpUrl (s : String) : Bool :=
  "http://".data.isPrefixOf s.data || "https://".data.isPrefixOf s.data

/-- `api_schemas.VariantReference(ref=path)`: the `ref` field is typed
`pydantic.HttpUrl` (schemas/api.py:54), so constructing the reference
validates the path and raises a `pydantic.ValidationError` for the
relative reference paths `_build_variant_path` produces. -/
def mkVariantReference (path : String) : Except QueryErr String :=
  if isAbsoluteHttpUrl path then .ok path else .error .validationError

/-- Fold one `_get_all_plugins` row into a name-keyed index mapping:
create the plugin's entry on first sight, then construct the variant's
`VariantReference` — which raises, because its `ref: HttpUrl` field
rejects the relative path — and insert it (the body of the row loops
of `get_plugin_index` and `get_plugin_type_index`, with the logo-URL
prefix as parameter). -/
def indexInsertRow (logoPrefix : String) (idx : List (String × PluginRef))
    (row : IndexRow) : Except QueryErr (List (String × PluginRef)) :=
  let idx :=
    if (idx.find? (fun e => e.1 = row.plugin_name)).isSome then idx
    else idx ++ [(row.plugin_name,
      { default_variant := row.default_variant
        logo_url :=
          match row.logo_url with
          | some l => if l = "" then none else some (logoPrefix ++ l)
          | none => none
        variants := [] })]
  match mkVariantReference
      (build_variant_path row.plugin_type row.plugin_name row.variant_name) with
  | .error e => .error e
  | .ok ref =>
      .ok (idx.map fun e =>
        if e.1 = row.plugin_name then
          (e.1, { e.2 with variants := (dictInsert e.2.variants row.variant_name ref) })
        else e)

/-- The row loop of `get_plugin_type_index`: fold every row into the
index, propagating the first exception. -/
def insertRows (logoPrefix : String) :
    List IndexRow → List (String × PluginRef) →
      Except QueryErr (List (String × PluginRef))
  | [], idx => .ok idx
  | row :: rest, idx =>
      match indexInsertRow logoPrefix idx row with
      | .error e => .error e
      | .ok idx2 => insertRows logoPrefix rest idx2

/-- `client.MeltanoHub.get_plugin_type_index` body after the type
coercion succeeded (logo URLs get the `/assets` prefix here).  Returns
the empty index for a type with no join rows; any row raises while
constructing its `VariantReference`. -/
def buildTypeIndex (s : Store) (t : PluginTypeEnum) :
    Except QueryErr (List (String × PluginRef)) :=
  insertRows (BASE_HUB_URL ++ "/assets") (get_all_plugins s (some t)) []

/-- `client.MeltanoHub.get_plugin_type_index`: coerce the type string
through `enums.PluginTypeEnum` — `ids.InvalidPluginTypeError` (a
`BadParameterError`) when it is not one of the eight values — then
build the name-keyed index of that type. -/
def get_plugin_type_index (s : Store) (plugin_type : String) :
    Except QueryErr (List (String × PluginRef)) :=
  match PluginTypeEnum.parse plugin_type with
  | none => .error .badParameter
  | some t => buildTypeIndex s t

/-- One step of the `get_plugin_index` row loop: update the row's
plugin type's inner index (the seeded outer mapping always carries
that key), propagating the `VariantReference` exception. -/
def updateTypeEntry (row : IndexRow) :
    List (PluginTypeEnum × List (String × PluginRef)) →
      Except QueryErr (List (PluginTypeEnum × List (String × PluginRef)))
  | [] => .ok []
  | e :: rest =>
      match (if e.1 = row.plugin_type then indexInsertRow BASE_HUB_URL e.2 row
             else .ok e.2) with
      | .error err => .error err
      | .ok inner =>
          match updateTypeEntry row rest with
          | .error err => .error err
          | .ok rest2 => .ok ((e.1, inner) :: rest2)

/-- The row loop of `get_plugin_index`. -/
def insertIndexRows :
    List IndexRow → List (PluginTypeEnum × List (String × PluginRef)) →
      Except QueryErr (List (PluginTypeEnum × List (String × PluginRef)))
  | [], idx => .ok idx
  | row :: rest, idx =>
      match updateTypeEntry row idx with
      | .error e => .error e
      | .ok idx2 => insertIndexRows rest idx2

/-- `client.MeltanoHub.get_plugin_index`: the mapping is seeded with an
empty inner index for every one of the eight plugin types, then every
`_get_all_plugins` row (no type filter) is folded into its type's inner
index (logo URLs get no `/assets` prefix here); the first row raises
while constructing its `VariantReference`. -/
def get_plugin_index (s : Store) :
    Except QueryErr (List (PluginTypeEnum × List (String × PluginRef))) :=
  insertIndexRows (get_all_plugins s none) (PluginTypeEnum.all.map fun t => (t, []))

/-- The distinct values of a list in first-occurrence order (the
grouping keys a `GROUP BY` produces, in the modelled result order). -/
def distinctFirst (l : List PluginTypeEnum) : List PluginTypeEnum :=
  l.foldl (fun acc t => if t ∈ acc then acc else acc ++ [t]) []

/-- `client.MeltanoHub.get_plugin_stats`: `SELECT plugin_type, COUNT(id)
GROUP BY plugin_type` — one entry per plugin type that actually occurs
in the `plugins` table (in first-occurrence order), no zero-filling. -/
def get_plugin_stats (s : Store) : List (PluginTypeEnum × Nat) :=
  (distinctFirst (s.plugins.map (·.plugin_type))).map
    (fun t => (t, (s.plugins.filter (fun p => p.plugin_type = t)).length))

/-! ## Per-document counting helpers for the ingestion pipeline -/

/-- 1 when a document fails validation, else 0. -/
def docFailCount (d : Document) : Nat :=
  match hub_plugin_model_validate d with
  | .ok _ => 0
  | .error _ => 1

/-- Number of variant rows a document contributes: 1 when it
validates, else 0. -/
def docVariantCount (d : Document) : Nat :=
  match hub_plugin_model_validate d with
  | .ok _ => 1
  | .error _ => 0

/-- Number of `LoadError` entries a document contributes: one per
error detail of its validation failure. -/
def docErrorCount (d : Document) : Nat :=
  match hub_plugin_model_validate d with
  | .ok _ => 0
  | .error errs => errs.length

/-- Sum of a per-document count over every variant document of a
`load_db` input, in iteration order. -/
def sumOverDocs (inp : LoadInput) (f : Document → Nat) : Nat :=
  (PluginTypeEnum.all.map fun t =>
    ((inp.tree t).map fun entry => (entry.2.map fun vd => f vd.2).sum).sum).sum

/-- Total number of variant documents of a `load_db` input. -/
def numDocs (inp : LoadInput) : Nat := sumOverDocs inp (fun _ => 1)

/-- Number of variant documents of a `load_db` input that fail
validation. -/
def numFailingDocs (inp : LoadInput) : Nat := sumOverDocs inp docFailCount

/-- The property claimed of the row sequence of one `load_db` run:
every maintainers-table row is emitted after every plugin-variants and
plugins table row. -/
def maintainersAfterAll (rows : List Row) : Prop :=
  ∀ i j : Fin rows.length, (rows.get i).isMaintainer →
    ((rows.get j).isVariant || (rows.get j).isPlugin) → j.val < i.val

instance (rows : List Row) : Decidable (maintainersAfterAll rows) := by
  unfold maintainersAfterAll; exact inferInstance

/-! ## Concrete fixtures used by counterexamples and witnesses -/

/-- The empty store snapshot. -/
def emptyStore : Store :=
  { plugins := [], variants := [], settings := [], setting_aliases := []
    setting_groups := [], capabilities := [], keywords := [], selects := []
    metadata := [], commands := [], maintainers := [] }

/-- A utilities plugin row. -/
def utilPlugin : PluginRow :=
  { id := "utilities.u1", default_variant_id := "utilities.u1.main"
    plugin_type := .utilities, name := "u1" }

/-- The single variant of `utilPlugin`. -/
def utilVariant : VariantRow :=
  { id := "utilities.u1.main", plugin_id := "utilities.u1", name := "main"
    description := none, docs := none, logo_url := none, pip_url := none
    executable := none, repo := some "https://github.com/example/u1"
    ext_repo := none, «namespace» := "u1", label := none, hidden := none }

/-- A stored setting row with a null kind (a plain string setting). -/
def stringSettingRow : SettingRow :=
  { id := "utilities.u1.main.setting_token", variant_id := "utilities.u1.main"
    name := "token", label := none, documentation := none, description := none
    placeholder := none, env := none, kind := none, value := none
    sensitive := some true, options := none }

/-- The same stored setting relabeled with the kind `"decimal"`, the
shape Scenario 3 of the specification describes. -/
def decimalSettingRow : SettingRow :=
  { stringSettingRow with kind := some "decimal" }

/-- A store with one utility variant carrying one string setting. -/
def utilStore : Store :=
  { emptyStore with plugins := [utilPlugin], variants := [utilVariant]
                    settings := [stringSettingRow] }

/-- A store with one utility variant carrying one `"decimal"` setting. -/
def decimalStore : Store :=
  { utilStore with settings := [decimalSettingRow] }

/-- The id of the utility variant. -/
def utilVid : VariantID := ⟨.utilities, "u1", "main"⟩

/-- An extractors plugin row. -/
def exPlugin : PluginRow :=
  { id := "extractors.tap-x", default_variant_id := "extractors.tap-x.main"
    plugin_type := .extractors, name := "tap-x" }

/-- The single variant of `exPlugin`: well-formed, one capability, but
no select and no metadata rows. -/
def exVariant : VariantRow :=
  { id := "extractors.tap-x.main", plugin_id := "extractors.tap-x", name := "main"
    description := none, docs := none, logo_url := none, pip_url := none
    executable := none, repo := some "https://github.com/example/tap-x"
    ext_repo := none, «namespace» := "tap_x", label := none, hidden := none }

/-- The capability row of `exVariant`. -/
def exCapability : CapabilityRow :=
  { id := "extractors.tap-x.main.capability_catalog"
    variant_id := "extractors.tap-x.main", name := "catalog" }

/-- A store with one extractor variant that has no select rows. -/
def exStore : Store :=
  { emptyStore with plugins := [exPlugin], variants := [exVariant]
                    capabilities := [exCapability] }

/-- The id of the extractor variant. -/
def exVid : VariantID := ⟨.extractors, "tap-x", "main"⟩

/-- A variant id no row of `exStore` carries. -/
def ghostVid : VariantID := ⟨.extractors, "tap-x", "ghost"⟩

/-- A store whose only plugin is one extractor. -/
def statsStore : Store := { emptyStore with plugins := [exPlugin] }

/-- A raw document that omits both required fields `name` and
`namespace` but carries `variant` and `repo`. -/
def docMissingTwo : Document :=
  { name := none, «namespace» := none, variant := some "v1"
    repo := some "https://github.com/example/tap-x", label := none
    description := none, docs := none, pip_url := none, executable := none
    ext_repo := none, logo_url := none, hidden := none, settings := []
    settings_group_validation := [], capabilities := [], keywords := []
    «select» := [], metadata := [], commands := [] }

/-- The same document with the missing required fields supplied. -/
def goodDoc : Document :=
  { docMissingTwo with name := some "tap-x", «namespace» := some "tap_x" }

/-- A `load_db` input with a single variant document that fails
validation with two error details. -/
def inp3 : LoadInput :=
  { maintainers := []
    default_variants := fun _ _ => none
    tree := fun t =>
      match t with
      | .extractors => [("tap-x", [("v1", docMissingTwo)])]
      | _ => [] }

/-- A one-variant store whose settings table holds exactly the row
`build_setting` produces from one validated setting, and whose alias
table holds that setting's alias rows — the store state after
ingesting that one setting. -/
def c7Store (ps : PluginSetting) : Store :=
  { emptyStore with
      plugins := [utilPlugin]
      variants := [utilVariant]
      settings := [(build_setting "utilities.u1.main" ps).1]
      setting_aliases := (build_setting "utilities.u1.main" ps).2 }

/-- A concrete options setting with one option. -/
def c7Setting : PluginSetting :=
  { aliases := none, description := none, documentation := none, env := none
    label := none, name := "level", placeholder := none, sensitive := none
    value := none, kind := some .options
    options := [⟨some (.str "info"), some "Info"⟩] }

/-- A plugin whose `default_variant_id` names its variant `b`. -/
def w5Plugin : PluginRow :=
  { id := "extractors.tap-x", default_variant_id := "extractors.tap-x.b"
    plugin_type := .extractors, name := "tap-x" }

/-- The non-default variant `a` of `w5Plugin`. -/
def w5A : VariantRow :=
  { id := "extractors.tap-x.a", plugin_id := "extractors.tap-x", name := "a"
    description := none, docs := none, logo_url := none, pip_url := none
    executable := none, repo := some "https://github.com/example/a"
    ext_repo := none, «namespace» := "tap_x", label := none, hidden := none }

/-- The default variant `b` of `w5Plugin`. -/
def w5B : VariantRow :=
  { w5A with id := "extractors.tap-x.b", name := "b"
             repo := some "https://github.com/example/b" }

/-- A store holding `w5Plugin` with variant `a` inserted before the
default variant `b`. -/
def w5Store : Store :=
  { emptyStore with plugins := [w5Plugin], variants := [w5A, w5B] }

/-- A plugin whose `default_variant_id` names a variant id that no
variant row carries. -/
def w10Plugin : PluginRow :=
  { id := "extractors.tap-y", default_variant_id := "extractors.tap-y.ghost"
    plugin_type := .extractors, name := "tap-y" }

/-- The one (non-default) variant row of `w10Plugin`. -/
def w10V : VariantRow :=
  { id := "extractors.tap-y.a", plugin_id := "extractors.tap-y", name := "a"
    description := none, docs := none, logo_url := none, pip_url := none
    executable := none, repo := some "https://github.com/example/y"
    ext_repo := none, «namespace» := "tap_y", label := none, hidden := none }

/-- A store where `w10Plugin`'s default-variant reference is dangling
while its variant row exists. -/
def w10Store : Store :=
  { emptyStore with plugins := [w10Plugin], variants := [w10V] }

/-- A `load_db` input with one maintainer and one valid variant
document. -/
def inp4 : LoadInput :=
  { maintainers := [("meltano", ⟨some "Meltano", some "Meltano", none⟩)]
    default_variants := fun _ _ => some "v1"
    tree := fun t =>
      match t with
      | .extractors => [("tap-x", [("v1", goodDoc)])]
      | _ => [] }

/-! ## Theorems -/

/-- No call of `processDocument` emits a maintainers-table row. -/
theorem processDocument_filter_maintainer (t : PluginTypeEnum) (pn pid vn : String)
    (d : Document) :
    (processDocument t pn pid vn d).1.filter Row.isMaintainer = [] := by
  unfold processDocument
  cases hv : hub_plugin_model_validate d with
  | error errs => simp
  | ok plugin =>
      simp [Row.isMaintainer, List.filter_append, List.filter_flatMap,
        List.filter_map, Function.comp_def, List.filter_cons, List.filter_false]

/-- One `processDocument` call emits exactly `docVariantCount` variant
rows: one for a validating document, none for a failing one. -/
theorem processDocument_filter_variant (t : PluginTypeEnum) (pn pid vn : String)
    (d : Document) :
    ((processDocument t pn pid vn d).1.filter Row.isVariant).length = docVariantCount d := by
  unfold processDocument docVariantCount
  cases hv : hub_plugin_model_validate d with
  | error errs => simp
  | ok plugin =>
      simp [Row.isVariant, List.filter_append, List.filter_flatMap,
        List.filter_map, Function.comp_def, List.filter_cons, List.filter_false]

/-- One `processDocument` call contributes exactly `docErrorCount`
load errors: one per error detail of a failing document. -/
theorem processDocument_error_count (t : PluginTypeEnum) (pn pid vn : String)
    (d : Document) :
    (processDocument t pn pid vn d).2.length = docErrorCount d := by
  unfold processDocument docErrorCount
  cases hv : hub_plugin_model_validate d with
  | error errs => simp
  | ok plugin => simp

/-! ### Helper lemmas -/

theorem sum_map_add_nat {α : Type} (l : List α) (f g : α → Nat) :
    (l.map fun x => f x + g x).sum = (l.map f).sum + (l.map g).sum := by
  induction l with
  | nil => simp
  | cons x xs ih => simp [ih]; omega

theorem foldl_append_pair {σ : Type} (g : σ → List Row × List LoadError)
    (l : List σ) (acc : List Row × List LoadError) :
    l.foldl (fun acc x => (acc.1 ++ (g x).1, acc.2 ++ (g x).2)) acc =
      (acc.1 ++ l.flatMap (fun x => (g x).1),
       acc.2 ++ l.flatMap (fun x => (g x).2)) := by
  induction l generalizing acc with
  | nil => simp
  | cons x xs ih => simp [ih, List.flatMap_cons, List.append_assoc]

theorem processPlugin_fst (inp : LoadInput) (t : PluginTypeEnum)
    (entry : String × List (String × Document)) :
    (processPlugin inp t entry).1 =
      entry.2.flatMap
        (fun vd => (processDocument t entry.1 (t.value ++ "." ++ entry.1) vd.1 vd.2).1)
      ++ [Row.plugin
            { id := t.value ++ "." ++ entry.1
              default_variant_id := t.value ++ "." ++ entry.1 ++ "." ++
                (match inp.default_variants t entry.1 with
                 | some v => v
                 | none => "None")
              plugin_type := t
              name := entry.1 }] := by
  simp only [processPlugin, foldl_append_pair, List.nil_append]

theorem processPlugin_snd (inp : LoadInput) (t : PluginTypeEnum)
    (entry : String × List (String × Document)) :
    (processPlugin inp t entry).2 =
      entry.2.flatMap
        (fun vd => (processDocument t entry.1 (t.value ++ "." ++ entry.1) vd.1 vd.2).2) := by
  simp only [processPlugin, foldl_append_pair, List.nil_append]

theorem processType_fst (inp : LoadInput) (t : PluginTypeEnum) :
    (processType inp t).1 =
      (inp.tree t).flatMap (fun entry => (processPlugin inp t entry).1) := by
  simp only [processType]
  rw [foldl_append_pair (fun entry => processPlugin inp t entry)]
  rfl

theorem processType_snd (inp : LoadInput) (t : PluginTypeEnum) :
    (processType inp t).2 =
      (inp.tree t).flatMap (fun entry => (processPlugin inp t entry).2) := by
  simp only [processType]
  rw [foldl_append_pair (fun entry => processPlugin inp t entry)]
  rfl

theorem load_db_fst (inp : LoadInput) :
    (load_db inp).1 =
      inp.maintainers.map mkMaintainerRow
      ++ PluginTypeEnum.all.flatMap (fun t => (processType inp t).1) := by
  simp only [load_db]
  rw [foldl_append_pair (fun t => processType inp t)]
  exact congrArg (List.map mkMaintainerRow inp.maintainers ++ ·) (List.nil_append _)

theorem load_db_snd (inp : LoadInput) :
    (load_db inp).2.errors =
      PluginTypeEnum.all.flatMap (fun t => (processType inp t).2) := by
  simp only [load_db]
  rw [foldl_append_pair (fun t => processType inp t)]
  exact List.nil_append _

/-- C1: the claimed decimal-to-integer downgrade cannot happen.
Requesting details of a variant with any setting at a client version
below (3, 9) raises `AttributeError` — `_convert_decimal_to_integer`
references the undefined name `meltano.DecimalSetting` — and a stored
setting of kind "decimal" cannot even be assembled at version (3, 9),
because the `PluginSetting` union has no "decimal" member: pydantic
rejects it instead of returning it unmodified. -/
theorem decimal_downgrade_raises :
    get_plugin_details utilStore utilVid (3, 2) = .error .attributeError ∧
    get_plugin_details decimalStore utilVid (3, 9) = .error .validationError :=
  ⟨rfl, rfl⟩

/-- C2 counterexample: on a store whose only plugin is an extractor,
`get_plugin_stats` returns no entry at all for the loaders type — the
mapping does not contain all eight plugin types as keys. -/
theorem get_plugin_stats_omits_empty_type :
    ¬ ∃ e ∈ get_plugin_stats statsStore, e.1 = PluginTypeEnum.loaders := by
  decide

/-- C3 counterexample: one single variant document that fails
validation (missing both `name` and `namespace`) yields a `LoadResult`
with two error entries, not K = 1: `load_db` appends one `LoadError`
per error detail of `pydantic.ValidationError.errors()`, not one per
failing document. -/
theorem load_db_two_errors_one_failing_doc :
    numFailingDocs inp3 = 1 ∧ (load_db inp3).2.errors.length = 2 :=
  ⟨rfl, rfl⟩

/-- C4 counterexample: on an input with one maintainer and one valid
variant document, the maintainers-table row is emitted before the
plugin-variants and plugins rows, not after them. -/
theorem maintainer_rows_not_emitted_last :
    ¬ maintainersAfterAll (load_db inp4).1 := by
  decide

/-- C6: the compatibility transform of `get_plugin_details` (the
decimal-to-integer rule followed by the sensitive-clearing rule) is
idempotent: running it a second time at the same client version —
sequenced through `Except.bind`, so a raised error propagates — yields
exactly the result of running it once. -/
theorem compat_transform_idempotent (version : VersionTuple)
    (settings : List PluginSetting) :
    (compatTransform version settings).bind (compatTransform version) =
      compatTransform version settings := by
  unfold compatTransform convert_decimal_to_integer
  cases h39 : vlt version (3, 9) <;>
    cases h33 : vlt version (3, 3) <;>
    cases settings <;>
    simp [Except.bind, h39, h33, List.map_map, Function.comp_def, clearSensitive]

/-- C9: `get_plugin_details` surfaces `NotFoundError` for an absent
variant id and succeeds on a well-formed utility variant, but on an
extractor variant with no select rows it raises a pydantic validation
error instead of returning the assembled document: `_variant_details`
passes the `PluginVariant.select` property — `None` when the variant
has no select rows — to the `list`-typed `select` field of
`ExtractorResponse`. -/
theorem get_plugin_details_not_found_iff_and_regression :
    get_plugin_details exStore ghostVid LATEST = .error .notFound ∧
    get_plugin_details exStore exVid LATEST = .error .validationError ∧
    (∃ d, get_plugin_details utilStore utilVid LATEST = .ok d) :=
  ⟨rfl, rfl, ⟨_, rfl⟩⟩


theorem flatMap_const_nil {α β : Type} (l : List α) :
    (l.flatMap fun _ => ([] : List β)) = [] := by
  induction l <;> simp [*]

theorem processPlugin_filter_maintainer (inp : LoadInput) (t : PluginTypeEnum)
    (entry : String × List (String × Document)) :
    (processPlugin inp t entry).1.filter Row.isMaintainer = [] := by
  rw [processPlugin_fst]
  simp [Row.isMaintainer, List.filter_append, List.filter_flatMap,
    processDocument_filter_maintainer, flatMap_const_nil, List.filter_cons]

theorem processType_filter_maintainer (inp : LoadInput) (t : PluginTypeEnum) :
    (processType inp t).1.filter Row.isMaintainer = [] := by
  rw [processType_fst]
  simp [List.filter_flatMap, processPlugin_filter_maintainer, flatMap_const_nil]

/-- C4 (amended): in the row sequence of one `load_db` run, every
maintainers-table row comes first, before every other row — the list
is its maintainer rows followed by its non-maintainer rows. -/
theorem maintainer_rows_first (inp : LoadInput) :
    (load_db inp).1 =
      (load_db inp).1.filter Row.isMaintainer
        ++ (load_db inp).1.filter (fun r => !r.isMaintainer) := by
  rw [load_db_fst, List.filter_append, List.filter_append]
  have hM : ∀ r ∈ inp.maintainers.map mkMaintainerRow, Row.isMaintainer r = true := by
    intro r hr
    obtain ⟨m, -, rfl⟩ := List.mem_map.mp hr
    rfl
  have hT : ∀ r ∈ PluginTypeEnum.all.flatMap (fun t => (processType inp t).1),
      Row.isMaintainer r = false := by
    intro r hr
    obtain ⟨t, -, hr2⟩ := List.mem_flatMap.mp hr
    have h0 := List.filter_eq_nil_iff.mp (processType_filter_maintainer inp t) r hr2
    simpa using h0
  rw [List.filter_eq_self.mpr hM,
    List.filter_eq_nil_iff.mpr (fun r hr => by simp [hT r hr]),
    List.filter_eq_nil_iff.mpr (fun r hr => by simp [hM r hr]),
    List.filter_eq_self.mpr (fun r hr => by simp [hT r hr]),
    List.append_nil, List.nil_append]

theorem processPlugin_variant_count (inp : LoadInput) (t : PluginTypeEnum)
    (entry : String × List (String × Document)) :
    ((processPlugin inp t entry).1.filter Row.isVariant).length =
      (entry.2.map fun vd => docVariantCount vd.2).sum := by
  rw [processPlugin_fst, List.filter_append]
  simp [Row.isVariant, List.filter_flatMap, List.length_flatMap, Function.comp_def,
    processDocument_filter_variant, List.filter_cons]

theorem processType_variant_count (inp : LoadInput) (t : PluginTypeEnum) :
    ((processType inp t).1.filter Row.isVariant).length =
      ((inp.tree t).map fun entry => (entry.2.map fun vd => docVariantCount vd.2).sum).sum := by
  rw [processType_fst]
  simp [List.filter_flatMap, List.length_flatMap, Function.comp_def,
    processPlugin_variant_count]

theorem load_db_variant_count (inp : LoadInput) :
    ((load_db inp).1.filter Row.isVariant).length = sumOverDocs inp docVariantCount := by
  rw [load_db_fst, List.filter_append]
  have hM : (inp.maintainers.map mkMaintainerRow).filter Row.isVariant = [] := by
    simp [mkMaintainerRow, Row.isVariant, List.filter_map, Function.comp_def,
      List.filter_false]
  rw [hM, List.nil_append, List.filter_flatMap, List.length_flatMap]
  simp only [Function.comp_def, processType_variant_count]
  rfl

theorem processPlugin_error_count (inp : LoadInput) (t : PluginTypeEnum)
    (entry : String × List (String × Document)) :
    (processPlugin inp t entry).2.length =
      (entry.2.map fun vd => docErrorCount vd.2).sum := by
  rw [processPlugin_snd]
  simp [List.length_flatMap, Function.comp_def, processDocument_error_count]

theorem processType_error_count (inp : LoadInput) (t : PluginTypeEnum) :
    (processType inp t).2.length =
      ((inp.tree t).map fun entry => (entry.2.map fun vd => docErrorCount vd.2).sum).sum := by
  rw [processType_snd]
  simp [List.length_flatMap, Function.comp_def, processPlugin_error_count]

theorem load_db_error_count (inp : LoadInput) :
    (load_db inp).2.errors.length = sumOverDocs inp docErrorCount := by
  rw [load_db_snd, List.length_flatMap]
  simp only [Function.comp_def, processType_error_count]
  rfl

theorem docVariant_add_fail (d : Document) :
    docVariantCount d + docFailCount d = 1 := by
  unfold docVariantCount docFailCount
  cases hv : hub_plugin_model_validate d <;> simp

theorem sumOverDocs_add (inp : LoadInput) (f g : Document → Nat) :
    sumOverDocs inp (fun d => f d + g d) = sumOverDocs inp f + sumOverDocs inp g := by
  unfold sumOverDocs
  have l1 : ∀ (docs : List (String × Document)),
      (docs.map fun vd => f vd.2 + g vd.2).sum =
        (docs.map fun vd => f vd.2).sum + (docs.map fun vd => g vd.2).sum :=
    fun docs => sum_map_add_nat docs (fun vd => f vd.2) (fun vd => g vd.2)
  simp only [l1]
  have l2 : ∀ (entries : List (String × List (String × Document))),
      (entries.map fun e =>
        (e.2.map fun vd => f vd.2).sum + (e.2.map fun vd => g vd.2).sum).sum =
      (entries.map fun e => (e.2.map fun vd => f vd.2).sum).sum
        + (entries.map fun e => (e.2.map fun vd => g vd.2).sum).sum :=
    fun es => sum_map_add_nat es _ _
  simp only [l2]
  exact sum_map_add_nat _ _ _

theorem sumOverDocs_mono (inp : LoadInput) (f g : Document → Nat)
    (h : ∀ d, f d ≤ g d) : sumOverDocs inp f ≤ sumOverDocs inp g := by
  unfold sumOverDocs
  refine List.sum_le_sum fun t _ => ?_
  refine List.sum_le_sum fun e _ => ?_
  exact List.sum_le_sum fun vd _ => h vd.2

theorem docFail_le_docError (d : Document) : docFailCount d ≤ docErrorCount d := by
  unfold docFailCount docErrorCount
  cases hv : hub_plugin_model_validate d with
  | ok p => simp
  | error errs =>
      have hne : errs ≠ [] := by
        unfold hub_plugin_model_validate at hv
        cases hn : d.name <;> cases hns : d.«namespace» <;>
          cases hvd : d.variant <;> cases hrp : d.repo <;>
          simp [hn, hns, hvd, hrp] at hv <;>
          (subst hv; simp [requiredFieldErrors, hn, hns, hvd, hrp])
      simpa using Nat.one_le_iff_ne_zero.mpr (by simpa using hne)

/-- C3 (amended): `load_db` returns normally for every input, produces
exactly `N − K` variant rows for `N` documents of which `K` fail
validation, and its error list has one entry per validation error
detail — at least `K` entries, and more when a failing document
carries several error details. -/
theorem load_db_error_isolation (inp : LoadInput) :
    ((load_db inp).1.filter Row.isVariant).length = numDocs inp - numFailingDocs inp ∧
    (load_db inp).2.errors.length = sumOverDocs inp docErrorCount ∧
    numFailingDocs inp ≤ (load_db inp).2.errors.length := by
  have hsum : sumOverDocs inp docVariantCount + numFailingDocs inp = numDocs inp := by
    have hfun : (fun d => docVariantCount d + docFailCount d) = (fun _ : Document => 1) :=
      funext docVariant_add_fail
    have h := sumOverDocs_add inp docVariantCount docFailCount
    rw [hfun] at h
    exact h.symm
  refine ⟨?_, load_db_error_count inp, ?_⟩
  · rw [load_db_variant_count]
    omega
  · rw [load_db_error_count]
    exact sumOverDocs_mono inp docFailCount docErrorCount docFail_le_docError


theorem lookup_map_pair {α β : Type} [DecidableEq α] (l : List α) (f : α → β) (t : α) :
    List.lookup t (l.map fun x => (x, f x)) = if t ∈ l then some (f t) else none := by
  induction l with
  | nil => simp
  | cons x xs ih =>
      simp only [List.map_cons, List.lookup]
      by_cases h : t = x
      · subst h
        simp
      · have hb : (t == x) = false := by simp [h]
        simp [hb, ih, List.mem_cons, h]

theorem mem_distinctFirst_aux (l acc : List PluginTypeEnum) (t : PluginTypeEnum) :
    (t ∈ l.foldl (fun acc t' => if t' ∈ acc then acc else acc ++ [t']) acc) ↔
      (t ∈ acc ∨ t ∈ l) := by
  induction l generalizing acc with
  | nil => simp
  | cons x xs ih =>
      simp only [List.foldl_cons]
      by_cases hx : x ∈ acc
      · rw [if_pos hx, ih]
        constructor
        · rintro (h | h)
          · exact Or.inl h
          · exact Or.inr (List.mem_cons_of_mem _ h)
        · rintro (h | h)
          · exact Or.inl h
          · rcases List.mem_cons.mp h with rfl | h2
            · exact Or.inl hx
            · exact Or.inr h2
      · rw [if_neg hx, ih]
        simp only [List.mem_append, List.mem_cons]
        constructor
        · rintro ((h | h) | h)
          · exact Or.inl h
          · exact Or.inr (Or.inl (by simpa using h))
          · exact Or.inr (Or.inr h)
        · rintro (h | h | h)
          · exact Or.inl (Or.inl h)
          · exact Or.inl (Or.inr (by simpa using h))
          · exact Or.inr h

theorem mem_distinctFirst (l : List PluginTypeEnum) (t : PluginTypeEnum) :
    t ∈ distinctFirst l ↔ t ∈ l := by
  unfold distinctFirst
  rw [mem_distinctFirst_aux]
  simp

/-- C2 (amended): `get_plugin_stats` maps exactly the plugin types that
occur in the plugins table to their plugin counts; a type with no
plugins has no entry at all. -/
theorem get_plugin_stats_lookup (s : Store) (t : PluginTypeEnum) :
    (get_plugin_stats s).lookup t =
      if (s.plugins.filter (fun p => p.plugin_type = t)).length = 0 then none
      else some (s.plugins.filter (fun p => p.plugin_type = t)).length := by
  unfold get_plugin_stats
  rw [lookup_map_pair]
  by_cases hm : t ∈ distinctFirst (s.plugins.map (·.plugin_type))
  · rw [if_pos hm]
    obtain ⟨p, hp, hpt⟩ := List.mem_map.mp ((mem_distinctFirst _ _).mp hm)
    have hpf : p ∈ s.plugins.filter (fun p => p.plugin_type = t) :=
      List.mem_filter.mpr ⟨hp, by simp [hpt]⟩
    rw [if_neg]
    intro h0
    rw [List.length_eq_zero] at h0
    rw [h0] at hpf
    simp at hpf
  · rw [if_neg hm, if_pos]
    have hnm : t ∉ s.plugins.map (·.plugin_type) :=
      fun h => hm ((mem_distinctFirst _ _).mpr h)
    rw [List.length_eq_zero]
    refine List.filter_eq_nil_iff.mpr fun p hp hpt => hnm ?_
    exact List.mem_map.mpr ⟨p, hp, by simpa using hpt⟩

theorem parse_value (t : PluginTypeEnum) : PluginTypeEnum.parse t.value = some t := by
  cases t <;> rfl

/-- C7: ingesting a validated options setting (`build_setting`) and
assembling its variant's detail document succeeds and returns the
setting with its options list unchanged, in the same order. -/
theorem options_round_trip (ps : PluginSetting)
    (hk : ps.kind = some SettingKind.options) (hne : ps.options ≠ []) :
    (variant_details (c7Store ps) utilVariant).map
      (fun d => d.settings.map (·.options)) = .ok [ps.options] := by
  have _hne := hne
  unfold variant_details c7Store
  simp [emptyStore, utilPlugin, utilVariant, build_setting, validateSettings,
    plugin_setting_model_validate, kind_discriminator, hk,
    SettingKind.tag, SettingKind.parse, Except.map]

/-- C7 witness: the round trip at a concrete one-option setting, via
the theorem itself. -/
theorem options_round_trip_witness :
    (variant_details (c7Store c7Setting) utilVariant).map
      (fun d => d.settings.map (·.options)) = .ok [c7Setting.options] :=
  options_round_trip c7Setting rfl (by simp [c7Setting])


theorem head_eq_of_all {α : Type} {l : List α} {a : α} (hne : l ≠ [])
    (h : ∀ x ∈ l, x = a) : l.head? = some a := by
  cases l with
  | nil => exact absurd rfl hne
  | cons x xs => simpa using h x (by simp)

theorem mem_defaultVariantJoin {s : Store} {pid : PluginID}
    {q : PluginRow} {w : VariantRow} :
    (q, w) ∈ defaultVariantJoin s pid ↔
      q ∈ s.plugins ∧ w ∈ s.variants ∧ w.id = q.default_variant_id ∧
        w.plugin_id = pid.as_db_id := by
  unfold defaultVariantJoin
  simp only [List.mem_flatMap, List.mem_filterMap]
  constructor
  · rintro ⟨p, hp, v, hv, hif⟩
    split at hif
    · rename_i hcond
      obtain ⟨h1, h2⟩ := hcond
      injection hif with hif2
      injection hif2 with hifp hifv
      subst hifp
      subst hifv
      exact ⟨hp, hv, h1, h2⟩
    · exact Option.noConfusion hif
  · rintro ⟨hq, hw, h1, h2⟩
    exact ⟨q, hq, w, hw, by rw [if_pos ⟨h1, h2⟩]⟩

/-- C5: for a store satisfying the data-model invariants (unique plugin
ids, unique variant ids, every plugin's default variant belongs to it),
`get_default_variant_url` of a plugin with two variants whose
`default_variant_id` names variant `B` returns the reference path of
`B` specifically, whatever the order of the row lists. -/
theorem get_default_variant_url_default
    (s : Store) (pid : PluginID) (p : PluginRow) (A B : VariantRow)
    (hp : p ∈ s.plugins)
    (hpid : p.id = pid.as_db_id)
    (hA : A ∈ s.variants) (hApl : A.plugin_id = p.id) (hAB : A.id ≠ B.id)
    (hB : B ∈ s.variants) (hBpl : B.plugin_id = p.id)
    (hBd : p.default_variant_id = B.id)
    (huniqp : ∀ q ∈ s.plugins, ∀ r ∈ s.plugins, q.id = r.id → q = r)
    (huniqv : ∀ v ∈ s.variants, ∀ w ∈ s.variants, v.id = w.id → v = w)
    (hown : ∀ q ∈ s.plugins, ∃ w ∈ s.variants,
        w.id = q.default_variant_id ∧ w.plugin_id = q.id) :
    get_default_variant_url s pid =
      .ok (build_variant_path p.plugin_type p.name B.name) := by
  have _hA := hA
  have _hApl := hApl
  have _hAB := hAB
  have hmem : (p, B) ∈ defaultVariantJoin s pid :=
    mem_defaultVariantJoin.mpr ⟨hp, hB, hBd.symm, hBpl.trans hpid⟩
  have hall : ∀ x ∈ defaultVariantJoin s pid, x = (p, B) := by
    rintro ⟨q, w⟩ hx
    obtain ⟨hq, hw, h1, h2⟩ := mem_defaultVariantJoin.mp hx
    obtain ⟨w2, hw2, hw2id, hw2pl⟩ := hown q hq
    have hww2 : w = w2 := huniqv w hw w2 hw2 (by rw [h1, hw2id])
    have hqid : q.id = p.id := by
      rw [← hw2pl, ← hww2, h2, hpid]
    have hqp : q = p := huniqp q hq p hp hqid
    subst hqp
    have hwB : w = B := huniqv w hw B hB (by rw [h1, hBd])
    rw [hwB]
  unfold get_default_variant_url
  rw [head_eq_of_all (List.ne_nil_of_mem hmem) hall]

/-- C5 witness: the concrete two-variant store `w5Store`, with variant
`a` inserted before the default variant `b`, via the theorem itself. -/
theorem get_default_variant_url_default_witness :
    get_default_variant_url w5Store ⟨.extractors, "tap-x"⟩ =
      .ok (build_variant_path PluginTypeEnum.extractors "tap-x" "b") :=
  get_default_variant_url_default w5Store ⟨.extractors, "tap-x"⟩ w5Plugin w5A w5B
    (by decide) (by decide) (by decide) (by decide) (by decide) (by decide)
    (by decide) (by decide) (by decide) (by decide) (by decide)



theorem build_variant_path_not_http (t : PluginTypeEnum) (n v : String) :
    isAbsoluteHttpUrl (build_variant_path t n v) = false := rfl

theorem indexInsertRow_error (logoPrefix : String)
    (idx : List (String × PluginRef)) (row : IndexRow) :
    indexInsertRow logoPrefix idx row = .error .validationError := by
  unfold indexInsertRow mkVariantReference
  rw [build_variant_path_not_http]
  rfl

theorem insertRows_cons_error (logoPrefix : String) (row : IndexRow)
    (rest : List IndexRow) (idx : List (String × PluginRef)) :
    insertRows logoPrefix (row :: rest) idx = .error .validationError := by
  unfold insertRows
  rw [indexInsertRow_error]

theorem updateTypeEntry_error (row : IndexRow)
    (idx : List (PluginTypeEnum × List (String × PluginRef)))
    (h : ∃ e ∈ idx, e.1 = row.plugin_type) :
    updateTypeEntry row idx = .error .validationError := by
  induction idx with
  | nil =>
      obtain ⟨e, he, -⟩ := h
      cases he
  | cons e rest ih =>
      unfold updateTypeEntry
      by_cases he : e.1 = row.plugin_type
      · rw [if_pos he, indexInsertRow_error]
      · rw [if_neg he]
        have hrest : ∃ e2 ∈ rest, e2.1 = row.plugin_type := by
          obtain ⟨e2, he2, h2⟩ := h
          rcases List.mem_cons.mp he2 with rfl | he2r
          · exact absurd h2 he
          · exact ⟨e2, he2r, h2⟩
        rw [ih hrest]

theorem mem_all_types (t : PluginTypeEnum) : t ∈ PluginTypeEnum.all := by
  cases t <;> simp [PluginTypeEnum.all]

theorem insertIndexRows_cons_error (row : IndexRow) (rest : List IndexRow) :
    insertIndexRows (row :: rest) (PluginTypeEnum.all.map fun t => (t, [])) =
      .error .validationError := by
  unfold insertIndexRows
  rw [updateTypeEntry_error row _
    ⟨(row.plugin_type, []), List.mem_map.mpr ⟨row.plugin_type, mem_all_types _, rfl⟩, rfl⟩]


theorem get_all_plugins_shape (s : Store) (tf : Option PluginTypeEnum)
    (row : IndexRow) (hrow : row ∈ get_all_plugins s tf) :
    ∃ q ∈ s.plugins, ∃ dv ∈ s.variants,
      q.default_variant_id = dv.id ∧ q.id = dv.plugin_id ∧
      row.plugin_name = q.name ∧ row.plugin_type = q.plugin_type ∧
      (∀ t0 ∈ tf, q.plugin_type = t0) := by
  unfold get_all_plugins at hrow
  simp only [List.mem_flatMap, List.mem_filterMap] at hrow
  obtain ⟨v, hv, q, hq, dv, hdv, hif⟩ := hrow
  split at hif
  case isFalse => exact Option.noConfusion hif
  case isTrue hcond =>
      injection hif with hif2
      subst hif2
      simp only [Bool.and_eq_true, decide_eq_true_eq] at hcond
      obtain ⟨⟨⟨h1, h2⟩, h3⟩, h4⟩ := hcond
      refine ⟨q, hq, dv, hdv, h2, h3, rfl, rfl, ?_⟩
      intro t0 ht0
      cases tf with
      | none => cases ht0
      | some t1 =>
          have h5 : t1 = t0 := by simpa using ht0
          subst h5
          simpa [Option.all] using h4

theorem get_all_plugins_no_broken (s : Store) (tf : Option PluginTypeEnum)
    (p : PluginRow)
    (hnodv : ∀ v ∈ s.variants, v.plugin_id = p.id → v.id ≠ p.default_variant_id)
    (huniq : ∀ q ∈ s.plugins, q.plugin_type = p.plugin_type → q.name = p.name → q = p) :
    ∀ row ∈ get_all_plugins s tf,
      row.plugin_type = p.plugin_type → row.plugin_name ≠ p.name := by
  intro row hrow htype hname
  obtain ⟨q, hq, dv, hdv, hdvid, hdvpl, hn, ht, -⟩ := get_all_plugins_shape s tf row hrow
  have hqp : q = p := huniq q hq (ht ▸ htype) (hn ▸ hname)
  subst hqp
  exact hnodv dv hdv hdvpl.symm hdvid.symm

/-- C8: the `BadParameterError` half of the claim holds — an
unrecognized type string fails with `BadParameterError` on any store —
but "for a recognized type it returns the index without error" does
not: a recognized type whose index has at least one row raises a
`pydantic.ValidationError`, because the row loop constructs
`VariantReference(ref=_build_variant_path(...))` and the `ref` field's
`HttpUrl` type rejects the relative path; only an empty type index is
returned without error. -/
theorem get_plugin_type_index_bad_parameter_and_url_bug :
    get_plugin_type_index emptyStore "bogus-type" = .error .badParameter ∧
    get_plugin_type_index w5Store "bogus-type" = .error .badParameter ∧
    get_plugin_type_index w5Store "extractors" = .error .validationError ∧
    get_plugin_type_index emptyStore "extractors" = .ok [] :=
  ⟨rfl, rfl, rfl, rfl⟩

/-- C10: a plugin whose `default_variant_id` matches no variant row of
its own contributes no row to the index join (`_get_all_plugins`
inner-joins against the default-variant row), for both the global and
the per-type query; consequently, whenever `get_plugin_type_index` of
its type or `get_plugin_index` returns a result at all — on this
source that is exactly when the join is empty, since any row raises
while constructing its `VariantReference` — the plugin's name is
absent from it, even though its variant rows are in the store. -/
theorem default_variant_broken_absent
    (s : Store) (p : PluginRow)
    (hp : p ∈ s.plugins)
    (hvex : ∃ v ∈ s.variants, v.plugin_id = p.id)
    (hnodv : ∀ v ∈ s.variants, v.plugin_id = p.id → v.id ≠ p.default_variant_id)
    (huniq : ∀ q ∈ s.plugins, q.plugin_type = p.plugin_type → q.name = p.name → q = p) :
    (∀ tf : Option PluginTypeEnum, ∀ row ∈ get_all_plugins s tf,
        row.plugin_type = p.plugin_type → row.plugin_name ≠ p.name) ∧
    (∀ idx, get_plugin_type_index s p.plugin_type.value = .ok idx →
        idx.lookup p.name = none) ∧
    (∀ outer, get_plugin_index s = .ok outer →
        ∀ inner, (p.plugin_type, inner) ∈ outer → inner.lookup p.name = none) := by
  have _hp := hp
  have _hvex := hvex
  refine ⟨?_, ?_, ?_⟩
  · exact fun tf => get_all_plugins_no_broken s tf p hnodv huniq
  · intro idx h
    have h2 : insertRows (BASE_HUB_URL ++ "/assets")
        (get_all_plugins s (some p.plugin_type)) [] = .ok idx := by
      unfold get_plugin_type_index at h
      rw [parse_value] at h
      exact h
    cases hrows : get_all_plugins s (some p.plugin_type) with
    | nil =>
        rw [hrows] at h2
        injection h2 with h3
        rw [← h3]
        rfl
    | cons row rest =>
        rw [hrows, insertRows_cons_error] at h2
        exact Except.noConfusion h2
  · intro outer h inner hin
    unfold get_plugin_index at h
    cases hrows : get_all_plugins s none with
    | nil =>
        rw [hrows] at h
        injection h with h2
        rw [← h2] at hin
        obtain ⟨t0, -, ht0⟩ := List.mem_map.mp hin
        injection ht0 with ht1 ht2
        rw [← ht2]
        rfl
    | cons row rest =>
        rw [hrows, insertIndexRows_cons_error] at h
        exact Except.noConfusion h

/-- C10 witness: the concrete dangling-default store `w10Store` — the
broken plugin is its only plugin, so the per-type query actually
returns a result, and the plugin is absent from it — via the theorem
itself. -/
theorem default_variant_broken_absent_witness :
    ∃ idx, get_plugin_type_index w10Store "extractors" = .ok idx ∧
      idx.lookup "tap-y" = none :=
  ⟨[], rfl,
    (default_variant_broken_absent w10Store w10Plugin (by decide) (by decide)
      (by decide) (by decide)).2.1 [] rfl⟩

end HubApi
